import Mathlib

/-!
Verification of the schedule-record endpoint (`src/api/jadwal.js`, with the
variant reading path in `src/unnamed/part_000`).

The JavaScript source is shallowly embedded:

* a JavaScript object holding only string-valued properties is modelled as an
  ordered association list `JSObj` (JS objects preserve insertion order;
  property assignment overwrites in place or appends at the end);
* a possibly-`undefined` string value is `Option String`; JS truthiness of a
  string-or-undefined value is "present and nonempty";
* the base64/JSON round-trip through which the blob stores the collection is
  modelled as the identity on collections (the spec places JSON encoding
  mechanics out of scope);
* `Date.now()` and `Math.random().toString(36).substr(2, 9)` are passed in as
  explicit parameters `now` and `rand`;
* `new Date("1970-01-01T" ++ s ++ ":00")` is modelled by `parseJsTime`, which
  follows the engine-independent ECMAScript Date Time String Format
  (two-digit fields, hour 24 permitted only as 24:00:00); strings outside
  that format are treated as an invalid date (`none`), whose comparisons are
  all false, exactly as NaN comparisons are in JS.  Implementation-specific
  legacy `Date` fallbacks are not modelled and no theorem relies on them;
* the remote store's answer to the GET is an explicit `FetchOutcome`, the
  answer to the conditional PUT an `Option GithubError`, and each request
  handler is a pure function that also returns the exact list of blob-store
  interactions (`Effect` trace) it performed, in order.
-/

/-- numeric value of a digit character (`c.toNat - 48`). -/
def dv (c : Char) : Nat := c.toNat - 48

/-- test for an ASCII digit, the `[0-9]` character class. -/
def isDigitCh (c : Char) : Bool := 48 ≤ c.toNat && c.toNat ≤ 57

/-- truthiness of a JS string value: nonempty. -/
def truthyStr (s : String) : Bool := !s.isEmpty

/-- the six validated fields of a schedule record, as read off the request
body; an absent (`undefined`) field is represented by `""`, which has the same
truthiness and fails the same pattern tests. `class_` models the JS property
`class`. -/
structure Sched where
  class_ : String
  day : String
  subject : String
  teacher : String
  startTime : String
  endTime : String

/-- the regular expression `^([01]?[0-9]|2[0-3]):[0-5][0-9]$` from
`src/api/jadwal.js:102` and `:106`, by case analysis on the character list:
a match consumes either one hour digit (`[01]?` absent, so `[0-9]`) or two
(`[01][0-9]` or `2[0-3]`), then `:`, then `[0-5][0-9]`. -/
def matchesTimeRegex (s : String) : Bool :=
  match s.data with
  | [h1, c, m1, m2] =>
      c == ':' && isDigitCh h1 && (isDigitCh m1 && dv m1 ≤ 5) && isDigitCh m2
  | [h1, h2, c, m1, m2] =>
      c == ':' &&
      (((h1 == '0' || h1 == '1') && isDigitCh h2) ||
        (h1 == '2' && (isDigitCh h2 && dv h2 ≤ 3))) &&
      (isDigitCh m1 && dv m1 ≤ 5) && isDigitCh m2
  | _ => false

/-- minutes-since-midnight meaning of `new Date("1970-01-01T" ++ s ++ ":00")`
(`src/api/jadwal.js:112`), per the ECMAScript Date Time String Format: the
time part must be two-digit `HH:MM` (with the appended `:00` seconds), hours
00-23 with minutes 00-59, or exactly `24:00`; anything else is an Invalid
Date, i.e. `none`. -/
def parseJsTime (s : String) : Option Nat :=
  match s.data with
  | [h1, h2, c, m1, m2] =>
      if c == ':' && isDigitCh h1 && isDigitCh h2 && isDigitCh m1 && isDigitCh m2 then
        let h := 10 * dv h1 + dv h2
        let m := 10 * dv m1 + dv m2
        if h ≤ 23 && m ≤ 59 then some (h * 60 + m)
        else if h == 24 && m == 0 then some 1440
        else none
      else none
  | _ => none

/-- error message of validation rule 1 (`src/api/jadwal.js:87`). -/
def msgClass : String := "Kelas harus diisi dan harus \x27XI A\x27 atau \x27XI B\x27"

/-- error message of validation rule 2 (`src/api/jadwal.js:91`). -/
def msgDay : String := "Hari harus diisi dan harus Senin, Selasa, Rabu, Kamis, atau Jumat"

/-- error message of validation rule 3 (`src/api/jadwal.js:95`). -/
def msgSubject : String := "Mata pelajaran wajib diisi"

/-- error message of validation rule 4 (`src/api/jadwal.js:99`). -/
def msgTeacher : String := "Nama guru wajib diisi"

/-- error message of validation rule 5 (`src/api/jadwal.js:103`). -/
def msgStart : String := "Waktu mulai harus diisi dengan format HH:mm"

/-- error message of validation rule 6 (`src/api/jadwal.js:107`). -/
def msgEnd : String := "Waktu selesai harus diisi dengan format HH:mm"

/-- error message of validation rule 7 (`src/api/jadwal.js:115`). -/
def msgOrder : String := "Waktu selesai harus setelah waktu mulai"

/-- `validateSchedule` (`src/api/jadwal.js:83-120`): the `errors.push`
sequence becomes a concatenation of conditional singletons, in source order.
The last block compares the two `Date` values; a comparison against an
Invalid Date (NaN) is false, so the message is pushed exactly when both
parses succeed and `end <= start`. -/
def validateSchedule (s : Sched) : List String :=
  (if !truthyStr s.class_ || !(["XI A", "XI B"].contains s.class_) then [msgClass] else []) ++
  (if !truthyStr s.day || !(["Senin", "Selasa", "Rabu", "Kamis", "Jumat"].contains s.day) then
    [msgDay] else []) ++
  (if !truthyStr s.subject then [msgSubject] else []) ++
  (if !truthyStr s.teacher then [msgTeacher] else []) ++
  (if !truthyStr s.startTime || !matchesTimeRegex s.startTime then [msgStart] else []) ++
  (if !truthyStr s.endTime || !matchesTimeRegex s.endTime then [msgEnd] else []) ++
  (if truthyStr s.startTime && truthyStr s.endTime then
    match parseJsTime s.startTime, parseJsTime s.endTime with
    | some a, some b => if b ≤ a then [msgOrder] else []
    | _, _ => []
  else [])

example : matchesTimeRegex "9:30" = true := by decide
example : matchesTimeRegex "25:00" = false := by decide
example : matchesTimeRegex "24:00" = false := by decide
example : matchesTimeRegex "10:00" = true := by decide
example : parseJsTime "24:00" = some 1440 := by decide
example : parseJsTime "9:30" = none := by decide
example : validateSchedule
    { class_ := "XI A", day := "Senin", subject := "Matematika", teacher := "Pak Budi",
      startTime := "10:00", endTime := "11:30" } = [] := by decide
example : validateSchedule
    { class_ := "XI C", day := "Minggu", subject := "", teacher := "",
      startTime := "25:00", endTime := "09:00" } =
    [msgClass, msgDay, msgSubject, msgTeacher, msgStart] := by decide

/-- a JS object with string-valued properties, in insertion order. -/
abbrev JSObj := List (String × String)

/-- property read, `o[k]`: first entry with the key, `none` for `undefined`. -/
def getField : JSObj → String → Option String
  | [], _ => none
  | (k', v') :: rest, k => if k' == k then some v' else getField rest k

/-- property assignment `o[k] = v`: overwrites the existing entry in place,
or appends a new one (JS objects keep insertion order). -/
def setField : JSObj → String → String → JSObj
  | [], k, v => [(k, v)]
  | (k', v') :: rest, k, v =>
      if k' == k then (k', v) :: rest else (k', v') :: setField rest k v

/-- a possibly-`undefined` property value interpolated into a template
literal renders as the text `undefined`. -/
def jsShow : Option String → String
  | some s => s
  | none => "undefined"

/-- truthiness of a string-or-undefined JS value. -/
def truthyOpt : Option String → Bool
  | some s => !s.isEmpty
  | none => false

/-- strict equality `===` between two string-or-undefined JS values
(`undefined === undefined` is true). -/
def jsStrictEq : Option String → Option String → Bool
  | none, none => true
  | some a, some b => a == b
  | _, _ => false

/-- view of a request-body object as the six validated fields; an absent
property maps to `""`, which is falsy and fails the pattern tests exactly as
`undefined` does in the source. -/
def toSched (o : JSObj) : Sched :=
  { class_ := (getField o "class").getD ""
    day := (getField o "day").getD ""
    subject := (getField o "subject").getD ""
    teacher := (getField o "teacher").getD ""
    startTime := (getField o "startTime").getD ""
    endTime := (getField o "endTime").getD "" }

/-- `generateScheduleId` (`src/api/jadwal.js:79-81`): `"jadwal_" + Date.now()
+ "_" + Math.random().toString(36).substr(2, 9)`, with the timestamp and the
random suffix passed in as `now` and `rand`. -/
def generateScheduleId (now : Nat) (rand : String) : String :=
  "jadwal_" ++ toString now ++ "_" ++ rand

/-- the branch constant `BRANCH` (`src/api/jadwal.js:6`). -/
def BRANCH : String := "main"

/-- a rejection object built by `githubRequest` (`src/api/jadwal.js:30-43`):
`statusCode`, `message`, and the optional `details` / `errors` fields. -/
structure GithubError where
  statusCode : Nat
  message : String
  details : Option String := none
  errorsIsSet : Bool := false

/-- the decoded result of the GET on the blob path, as `getCurrentSchedules`
consumes it: a 2xx file object whose `content` (modelled directly as the
decoded collection) and `sha` may each be absent, or a rejection. -/
inductive FetchOutcome where
  | fileData (content : Option (List JSObj)) (sha : Option String)
  | failed (e : GithubError)

/-- the `{ schedules, sha }` pair returned by `getCurrentSchedules`. -/
structure ReadState where
  schedules : List JSObj
  sha : Option String

/-- `getCurrentSchedules` (`src/api/jadwal.js:62-77`): an absent `content`
field yields the empty collection with no token; a 404 rejection is caught
and yields the same; any other rejection is rethrown. -/
def getCurrentSchedules : FetchOutcome → Except GithubError ReadState
  | .fileData none _ => .ok ⟨[], none⟩
  | .fileData (some l) sha => .ok ⟨l, sha⟩
  | .failed e => if e.statusCode == 404 then .ok ⟨[], none⟩ else .error e

namespace Part000

/-- the GET outcome seen by the `src/unnamed/part_000` variant, whose
`githubRequest` resolves a non-JSON response to the raw body text. -/
inductive FetchOutcome where
  | rawBody (s : String)
  | fileData (content : Option (List JSObj)) (sha : Option String)
  | failed (e : GithubError)

/-- `getCurrentSchedules` (`src/unnamed/part_000:58-77`): a string result
(non-JSON response) yields the empty collection with no token, then as in
the main file. -/
def getCurrentSchedules : FetchOutcome → Except GithubError ReadState
  | .rawBody _ => .ok ⟨[], none⟩
  | .fileData none _ => .ok ⟨[], none⟩
  | .fileData (some l) sha => .ok ⟨l, sha⟩
  | .failed e => if e.statusCode == 404 then .ok ⟨[], none⟩ else .error e

end Part000

/-- the JSON body of the conditional PUT built by `updateGitHubFile`
(`src/api/jadwal.js:146-156`): `message`, `content` (the re-encoded
collection, encoding modelled as the identity), `branch`, and the `sha`
property that is only set when the token is truthy. -/
structure UpdatePayload where
  message : String
  content : List JSObj
  branch : String
  sha : Option String

/-- `updateGitHubFile` (`src/api/jadwal.js:146-156`) as the payload it sends:
`if (sha) updatePayload.sha = sha` keeps the token exactly when it is a
nonempty string. -/
def updateGitHubFile (schedules : List JSObj) (message : String) (sha : Option String) :
    UpdatePayload :=
  { message := message
    content := schedules
    branch := BRANCH
    sha := match sha with
      | some t => if t.isEmpty then none else some t
      | none => none }

/-- one blob-store interaction performed by a handler. -/
inductive Effect where
  | readBlob
  | writeBlob (p : UpdatePayload)

/-- the HTTP response a handler branch produces: an error response, a
success response carrying the affected record, or an exception propagated to
the surrounding `catch`. -/
inductive HandlerResp where
  | errorResp (status : Nat) (error : String)
  | successResp (status : Nat) (message : String) (schedule : JSObj)
  | threw (e : GithubError)

/-- a handler run: its response together with the ordered list of blob-store
interactions it performed. -/
structure HandlerRun where
  resp : HandlerResp
  trace : List Effect

/-- `schedules.findIndex(p)` (`src/api/jadwal.js:207` and `:237`): index of
the first element satisfying the predicate, `none` modelling `-1`. -/
def findIndexJs (p : α → Bool) : List α → Option Nat
  | [] => none
  | x :: xs => if p x then some 0 else (findIndexJs p xs).map (· + 1)

/-- the POST branch (`src/api/jadwal.js:159-185`): validate, assign the
generated id onto the request body, read the current collection, append the
(mutated) body, write conditionally with the token of that read.  `fetch` is
the store's answer to the read and `writeErr` the failure, if any, of the
write. -/
def postHandler (body : JSObj) (now : Nat) (rand : String) (fetch : FetchOutcome)
    (writeErr : Option GithubError) : HandlerRun :=
  let errors := validateSchedule (toSched body)
  if !errors.isEmpty then
    ⟨.errorResp 400 (String.intercalate ", " errors), []⟩
  else
    let newSchedule := setField body "id" (generateScheduleId now rand)
    match getCurrentSchedules fetch with
    | .error e => ⟨.threw e, [.readBlob]⟩
    | .ok st =>
      let payload := updateGitHubFile (st.schedules ++ [newSchedule])
        ("Tambah jadwal: " ++ jsShow (getField newSchedule "subject") ++ " untuk " ++
          jsShow (getField newSchedule "class")) st.sha
      match writeErr with
      | some e => ⟨.threw e, [.readBlob, .writeBlob payload]⟩
      | none => ⟨.successResp 201 "Jadwal berhasil ditambahkan" newSchedule,
          [.readBlob, .writeBlob payload]⟩

/-- the PUT branch (`src/api/jadwal.js:188-223`): require a truthy id,
validate, read, locate the record with the body's id, replace it wholesale
by the body, write conditionally with the token of that read. -/
def putHandler (body : JSObj) (fetch : FetchOutcome) (writeErr : Option GithubError) :
    HandlerRun :=
  if !truthyOpt (getField body "id") then
    ⟨.errorResp 400 "ID jadwal wajib diisi", []⟩
  else
    let errors := validateSchedule (toSched body)
    if !errors.isEmpty then
      ⟨.errorResp 400 (String.intercalate ", " errors), []⟩
    else
      match getCurrentSchedules fetch with
      | .error e => ⟨.threw e, [.readBlob]⟩
      | .ok st =>
        match findIndexJs (fun r => jsStrictEq (getField r "id") (getField body "id"))
            st.schedules with
        | none => ⟨.errorResp 404 "Jadwal tidak ditemukan", [.readBlob]⟩
        | some i =>
          let updated := st.schedules.set i body
          let payload := updateGitHubFile updated
            ("Update jadwal: " ++ jsShow (getField body "subject") ++ " untuk " ++
              jsShow (getField body "class")) st.sha
          match writeErr with
          | some e => ⟨.threw e, [.readBlob, .writeBlob payload]⟩
          | none => ⟨.successResp 200 "Jadwal berhasil diperbarui" body,
              [.readBlob, .writeBlob payload]⟩

/-- `schedules.splice(i, 1)` on the collection: the reduced list. -/
def spliceOne (l : List JSObj) (i : Nat) : List JSObj :=
  l.take i ++ l.drop (i + 1)

/-- the DELETE branch (`src/api/jadwal.js:226-253`): require a truthy query
id, read, locate the record with that id, remove exactly it, write the
reduced collection conditionally with the token of that read, and answer
with the removed record.  `qid` is `req.query.id` (`none` for absent). -/
def deleteHandler (qid : Option String) (fetch : FetchOutcome)
    (writeErr : Option GithubError) : HandlerRun :=
  if !truthyOpt qid then
    ⟨.errorResp 400 "ID jadwal wajib diisi", []⟩
  else
    match getCurrentSchedules fetch with
    | .error e => ⟨.threw e, [.readBlob]⟩
    | .ok st =>
      match findIndexJs (fun r => jsStrictEq (getField r "id") qid) st.schedules with
      | none => ⟨.errorResp 404 "Jadwal tidak ditemukan", [.readBlob]⟩
      | some i =>
        let deletedSchedule := (st.schedules.get? i).getD []
        let payload := updateGitHubFile (spliceOne st.schedules i)
          ("Hapus jadwal: " ++ jsShow (getField deletedSchedule "subject") ++ " untuk " ++
            jsShow (getField deletedSchedule "class")) st.sha
        match writeErr with
        | some e => ⟨.threw e, [.readBlob, .writeBlob payload]⟩
        | none => ⟨.successResp 200 "Jadwal berhasil dihapus" deletedSchedule,
            [.readBlob, .writeBlob payload]⟩

/-- a decoded JSON value; numbers keep their raw lexeme (no arithmetic on
them is ever performed by the source). -/
inductive JValue where
  | null
  | bool (b : Bool)
  | num (raw : String)
  | str (s : String)
  | arr (elems : List JValue)
  | obj (fields : List (String × JValue))

/-- message of the exception `JSON.parse` raises at an unexpected character
(classic V8 wording). -/
def errUnexpected (c : Char) (pos : Nat) : String :=
  "Unexpected token " ++ String.singleton c ++ " in JSON at position " ++ toString pos

/-- message of the exception `JSON.parse` raises at a truncated input. -/
def errEndOfInput : String := "Unexpected end of JSON input"

/-- JSON insignificant whitespace. -/
def isJsonWs : Char → Bool
  | ' ' | '\t' | '\n' | '\r' => true
  | _ => false

/-- skip insignificant whitespace, tracking the position. -/
def skipWs : List Char → Nat → List Char × Nat
  | [], p => ([], p)
  | c :: cs, p => if isJsonWs c then skipWs cs (p + 1) else (c :: cs, p)

/-- consume an exact literal (`null`, `true`, `false`). -/
def expectChars : List Char → Nat → List Char → Except String (List Char × Nat)
  | cs, p, [] => .ok (cs, p)
  | [], _, _ :: _ => .error errEndOfInput
  | c :: cs, p, e :: es =>
      if c == e then expectChars cs (p + 1) es else .error (errUnexpected c p)

/-- value of a hexadecimal digit. -/
def hexVal (c : Char) : Option Nat :=
  if 48 ≤ c.toNat && c.toNat ≤ 57 then some (c.toNat - 48)
  else if 97 ≤ c.toNat && c.toNat ≤ 102 then some (c.toNat - 87)
  else if 65 ≤ c.toNat && c.toNat ≤ 70 then some (c.toNat - 55)
  else none

/-- single-character JSON string escapes. -/
def escChar : Char → Option Char
  | 'n' => some '\n'
  | 't' => some '\t'
  | 'r' => some '\r'
  | 'b' => some (Char.ofNat 8)
  | 'f' => some (Char.ofNat 12)
  | '/' => some '/'
  | '"' => some '"'
  | '\\' => some '\\'
  | _ => none

/-- scan a JSON string body after the opening quote; `fuel` dominates the
remaining input length. -/
def parseStringBody : Nat → List Char → Nat → List Char → Except String (String × List Char × Nat)
  | 0, _, _, _ => .error errEndOfInput
  | _ + 1, [], _, _ => .error errEndOfInput
  | fuel + 1, c :: cs, p, acc =>
      if c == '"' then .ok (String.mk acc.reverse, cs, p + 1)
      else if c == '\\' then
        match cs with
        | [] => .error errEndOfInput
        | e :: cs' =>
          if e == 'u' then
            match cs' with
            | a :: b :: c2 :: d :: rest =>
              match hexVal a, hexVal b, hexVal c2, hexVal d with
              | some x1, some x2, some x3, some x4 =>
                  parseStringBody fuel rest (p + 6)
                    (Char.ofNat (((x1 * 16 + x2) * 16 + x3) * 16 + x4) :: acc)
              | _, _, _, _ => .error (errUnexpected e (p + 1))
            | _ => .error errEndOfInput
          else
            match escChar e with
            | some ec => parseStringBody fuel cs' (p + 2) (ec :: acc)
            | none => .error (errUnexpected e (p + 1))
      else parseStringBody fuel cs (p + 1) (c :: acc)

/-- scan a digit run, returning it together with the rest and new position. -/
def scanDigits : List Char → Nat → List Char × List Char × Nat
  | [], p => ([], [], p)
  | c :: cs, p =>
      if isDigitCh c then
        match scanDigits cs (p + 1) with
        | (ds, rest, p') => (c :: ds, rest, p')
      else ([], c :: cs, p)

/-- scan a JSON number lexeme: `-? digits (. digits)? ([eE] [+-]? digits)?`. -/
def scanNumber (cs : List Char) (p : Nat) : Except String (String × List Char × Nat) :=
  let (neg, cs1, p1) :=
    match cs with
    | '-' :: cs' => (['-'], cs', p + 1)
    | _ => (([] : List Char), cs, p)
  match scanDigits cs1 p1 with
  | ([], [], _) => .error errEndOfInput
  | ([], c :: _, p2) => .error (errUnexpected c p2)
  | (ds, rest2, p2) =>
    let (frac, rest3, p3) :=
      match rest2 with
      | '.' :: cs' =>
        match scanDigits cs' (p2 + 1) with
        | (fs, rest', p') => ('.' :: fs, rest', p')
      | _ => (([] : List Char), rest2, p2)
    let (ex, rest4, p4) :=
      match rest3 with
      | 'e' :: cs' =>
        match cs' with
        | '+' :: cs'' =>
          match scanDigits cs'' (p3 + 2) with
          | (es, rest', p') => ('e' :: '+' :: es, rest', p')
        | '-' :: cs'' =>
          match scanDigits cs'' (p3 + 2) with
          | (es, rest', p') => ('e' :: '-' :: es, rest', p')
        | _ =>
          match scanDigits cs' (p3 + 1) with
          | (es, rest', p') => ('e' :: es, rest', p')
      | 'E' :: cs' =>
        match cs' with
        | '+' :: cs'' =>
          match scanDigits cs'' (p3 + 2) with
          | (es, rest', p') => ('E' :: '+' :: es, rest', p')
        | '-' :: cs'' =>
          match scanDigits cs'' (p3 + 2) with
          | (es, rest', p') => ('E' :: '-' :: es, rest', p')
        | _ =>
          match scanDigits cs' (p3 + 1) with
          | (es, rest', p') => ('E' :: es, rest', p')
      | _ => (([] : List Char), rest3, p3)
    .ok (String.mk (neg ++ ds ++ frac ++ ex), rest4, p4)

mutual

/-- parse one JSON value at the given position. -/
def parseValue : Nat → List Char → Nat → Except String (JValue × List Char × Nat)
  | 0, _, _ => .error errEndOfInput
  | fuel + 1, cs, p =>
    match cs with
    | [] => .error errEndOfInput
    | c :: cs' =>
      if c == 'n' then
        match expectChars cs' (p + 1) ['u', 'l', 'l'] with
        | .ok (rest, p') => .ok (.null, rest, p')
        | .error e => .error e
      else if c == 't' then
        match expectChars cs' (p + 1) ['r', 'u', 'e'] with
        | .ok (rest, p') => .ok (.bool true, rest, p')
        | .error e => .error e
      else if c == 'f' then
        match expectChars cs' (p + 1) ['a', 'l', 's', 'e'] with
        | .ok (rest, p') => .ok (.bool false, rest, p')
        | .error e => .error e
      else if c == '"' then
        match parseStringBody fuel cs' (p + 1) [] with
        | .ok (s, rest, p') => .ok (.str s, rest, p')
        | .error e => .error e
      else if c == '[' then parseArrayItems fuel cs' (p + 1) [] true
      else if c == '{' then parseObjectItems fuel cs' (p + 1) [] true
      else if c == '-' || isDigitCh c then
        match scanNumber cs p with
        | .ok (raw, rest, p') => .ok (.num raw, rest, p')
        | .error e => .error e
      else .error (errUnexpected c p)

/-- parse the items of an array after `[` (or after a `,`); `first` is true
before any element has been read, permitting an immediate `]`. -/
def parseArrayItems : Nat → List Char → Nat → List JValue → Bool →
    Except String (JValue × List Char × Nat)
  | 0, _, _, _, _ => .error errEndOfInput
  | fuel + 1, cs, p, acc, first =>
    match skipWs cs p with
    | (cs1, p1) =>
      match cs1 with
      | [] => .error errEndOfInput
      | c :: cs2 =>
        if first && c == ']' then .ok (.arr acc.reverse, cs2, p1 + 1)
        else
          match parseValue fuel cs1 p1 with
          | .error e => .error e
          | .ok (v, rest, p2) =>
            match skipWs rest p2 with
            | ([], _) => .error errEndOfInput
            | (c' :: rest', p3) =>
              if c' == ',' then parseArrayItems fuel rest' (p3 + 1) (v :: acc) false
              else if c' == ']' then .ok (.arr (v :: acc).reverse, rest', p3 + 1)
              else .error (errUnexpected c' p3)

/-- parse the members of an object after `{` (or after a `,`). -/
def parseObjectItems : Nat → List Char → Nat → List (String × JValue) → Bool →
    Except String (JValue × List Char × Nat)
  | 0, _, _, _, _ => .error errEndOfInput
  | fuel + 1, cs, p, acc, first =>
    match skipWs cs p with
    | (cs1, p1) =>
      match cs1 with
      | [] => .error errEndOfInput
      | c :: cs2 =>
        if first && c == '}' then .ok (.obj acc.reverse, cs2, p1 + 1)
        else if c == '"' then
          match parseStringBody fuel cs2 (p1 + 1) [] with
          | .error e => .error e
          | .ok (key, rest, p2) =>
            match skipWs rest p2 with
            | ([], _) => .error errEndOfInput
            | (c' :: rest', p3) =>
              if c' == ':' then
                match skipWs rest' (p3 + 1) with
                | (rest'', p4) =>
                  match parseValue fuel rest'' p4 with
                  | .error e => .error e
                  | .ok (v, rest2, p5) =>
                    match skipWs rest2 p5 with
                    | ([], _) => .error errEndOfInput
                    | (c'' :: rest3, p6) =>
                      if c'' == ',' then
                        parseObjectItems fuel rest3 (p6 + 1) ((key, v) :: acc) false
                      else if c'' == '}' then .ok (.obj ((key, v) :: acc).reverse, rest3, p6 + 1)
                      else .error (errUnexpected c'' p6)
              else .error (errUnexpected c' p3)
        else .error (errUnexpected c p1)

end

/-- `JSON.parse` on a whole input string: optional whitespace, one value,
optional whitespace, end of input. -/
def jsonParse (s : String) : Except String JValue :=
  let cs := s.data
  match skipWs cs 0 with
  | (cs1, p1) =>
    match parseValue (cs.length + 1) cs1 p1 with
    | .error e => .error e
    | .ok (v, rest, p2) =>
      match skipWs rest p2 with
      | ([], _) => .ok v
      | (c :: _, p3) => .error (errUnexpected c p3)

example : jsonParse "\x7b\x7d" = .ok (.obj []) := by rfl
example : jsonParse "ab" = .error (errUnexpected 'a' 0) := by rfl
example : jsonParse "" = .error errEndOfInput := by rfl
example : jsonParse " [1, true, \"x\"] " =
    .ok (.arr [.num "1", .bool true, .str "x"]) := by rfl

/-- falsiness of `String.isEmpty` is disequality with the empty string. -/
theorem isEmpty_false_iff (s : String) : s.isEmpty = false ↔ ¬s = "" := by
  rw [← String.isEmpty_iff]
  cases s.isEmpty <;> simp

/-- membership in one conditional `errors.push` block. -/
theorem mem_singleton_ite {x m : String} {c : Prop} [Decidable c] :
    (x ∈ if c then [m] else []) ↔ (c ∧ x = m) := by
  by_cases h : c <;> simp [h]

/-- membership in a conditional block with a compound body. -/
theorem mem_ite_nil {x : String} {c : Prop} [Decidable c] {l : List String} :
    (x ∈ if c then l else []) ↔ (c ∧ x ∈ l) := by
  by_cases h : c <;> simp [h]

/-- C2: for every input record, validation checks all seven rules and the
result contains a rule's message exactly when that rule is violated, so
simultaneous violations all appear together rather than only the first one
encountered. -/
theorem C2_validation_accumulates_all_rules (s : Sched) :
    (msgClass ∈ validateSchedule s ↔ ¬(s.class_ ≠ "" ∧ (s.class_ = "XI A" ∨ s.class_ = "XI B"))) ∧
    (msgDay ∈ validateSchedule s ↔
      ¬(s.day ≠ "" ∧
        (s.day = "Senin" ∨ s.day = "Selasa" ∨ s.day = "Rabu" ∨ s.day = "Kamis" ∨
          s.day = "Jumat"))) ∧
    (msgSubject ∈ validateSchedule s ↔ s.subject = "") ∧
    (msgTeacher ∈ validateSchedule s ↔ s.teacher = "") ∧
    (msgStart ∈ validateSchedule s ↔ ¬(s.startTime ≠ "" ∧ matchesTimeRegex s.startTime = true)) ∧
    (msgEnd ∈ validateSchedule s ↔ ¬(s.endTime ≠ "" ∧ matchesTimeRegex s.endTime = true)) ∧
    (msgOrder ∈ validateSchedule s ↔
      s.startTime ≠ "" ∧ s.endTime ≠ "" ∧
        ∃ a b, parseJsTime s.startTime = some a ∧ parseJsTime s.endTime = some b ∧ b ≤ a) := by
  rcases hpa : parseJsTime s.startTime with _ | a <;>
    rcases hpb : parseJsTime s.endTime with _ | b <;>
    refine ⟨?_, ?_, ?_, ?_, ?_, ?_, ?_⟩ <;>
    simp [validateSchedule, hpa, hpb, mem_singleton_ite, mem_ite_nil, truthyStr,
      String.isEmpty_iff, isEmpty_false_iff, List.contains, msgClass, msgDay, msgSubject,
      msgTeacher, msgStart, msgEnd, msgOrder] <;>
    tauto

/-- two characters are equal exactly when their code points are. -/
theorem char_eq_iff_toNat {c d : Char} : c = d ↔ c.toNat = d.toNat := by
  constructor
  · intro h
    rw [h]
  · intro h
    have hc := Char.ofNat_toNat c
    rw [← hc, h, Char.ofNat_toNat]

/-- written from the claim: a two-digit `HH:MM` time string, hours 00-23 and
minutes 00-59. -/
def twoDigitHHMM (s : String) : Bool :=
  match s.data with
  | [h1, h2, c, m1, m2] =>
      c == ':' && isDigitCh h1 && isDigitCh h2 && isDigitCh m1 && isDigitCh m2 &&
        (10 * dv h1 + dv h2 ≤ 23) && (10 * dv m1 + dv m2 ≤ 59)
  | _ => false

/-- the additional shape the source's pattern accepts: a one-digit hour
`H:MM`, hour 0-9 and minutes 00-59. -/
def oneDigitHMM (s : String) : Bool :=
  match s.data with
  | [h1, c, m1, m2] =>
      c == ':' && isDigitCh h1 && isDigitCh m1 && isDigitCh m2 && (10 * dv m1 + dv m2 ≤ 59)
  | _ => false

/-- the source's time pattern accepts exactly the two-digit `HH:MM` times
with hours 00-23 and minutes 00-59, plus the one-digit-hour `H:MM` times. -/
theorem matchesTimeRegex_iff (t : String) :
    matchesTimeRegex t = true ↔ (twoDigitHHMM t = true ∨ oneDigitHMM t = true) := by
  rcases ht : t.data with _ | ⟨c1, _ | ⟨c2, _ | ⟨c3, _ | ⟨c4, _ | ⟨c5, _ | ⟨c6, rest⟩⟩⟩⟩⟩⟩ <;>
    simp only [matchesTimeRegex, twoDigitHHMM, oneDigitHMM, ht] <;>
    simp [beq_iff_eq, char_eq_iff_toNat, isDigitCh, dv] <;>
    omega

/-- a string accepted by the time pattern is nonempty. -/
theorem matchesTimeRegex_ne_empty {t : String} (h : matchesTimeRegex t = true) : ¬t = "" := by
  intro he
  subst he
  simp [matchesTimeRegex] at h

/-- C3 counterexample: `"9:30"` is not of the claimed two-digit `HH:MM` form,
yet the source's pattern accepts it, and a record using it validates with no
error at all — so acceptance is not "exactly the two-digit form". -/
theorem C3_counterexample :
    matchesTimeRegex "9:30" = true ∧ twoDigitHHMM "9:30" = false ∧
    validateSchedule
      { class_ := "XI A", day := "Senin", subject := "Matematika", teacher := "Pak Budi",
        startTime := "9:30", endTime := "10:30" } = [] := by
  decide

/-- membership of the rule-5 message, in terms of the time pattern. -/
theorem mem_msgStart_iff (s : Sched) :
    msgStart ∈ validateSchedule s ↔
      ¬(s.startTime ≠ "" ∧ matchesTimeRegex s.startTime = true) := by
  rcases hpa : parseJsTime s.startTime with _ | a <;>
    rcases hpb : parseJsTime s.endTime with _ | b <;>
    simp [validateSchedule, hpa, hpb, mem_singleton_ite, mem_ite_nil, truthyStr,
      String.isEmpty_iff, isEmpty_false_iff, msgClass, msgDay, msgSubject, msgTeacher,
      msgStart, msgEnd, msgOrder] <;>
    tauto

/-- membership of the rule-6 message, in terms of the time pattern. -/
theorem mem_msgEnd_iff (s : Sched) :
    msgEnd ∈ validateSchedule s ↔
      ¬(s.endTime ≠ "" ∧ matchesTimeRegex s.endTime = true) := by
  rcases hpa : parseJsTime s.startTime with _ | a <;>
    rcases hpb : parseJsTime s.endTime with _ | b <;>
    simp [validateSchedule, hpa, hpb, mem_singleton_ite, mem_ite_nil, truthyStr,
      String.isEmpty_iff, isEmpty_false_iff, msgClass, msgDay, msgSubject, msgTeacher,
      msgStart, msgEnd, msgOrder] <;>
    tauto

/-- C3 (amended): validation contributes the time-format error for
`startTime` (resp. `endTime`) exactly when the string is neither a two-digit
`HH:MM` time with hours 00-23 and minutes 00-59 nor a one-digit-hour `H:MM`
time with hour 0-9 and minutes 00-59. -/
theorem C3_time_format_amended (s : Sched) :
    (msgStart ∈ validateSchedule s ↔
      ¬(twoDigitHHMM s.startTime = true ∨ oneDigitHMM s.startTime = true)) ∧
    (msgEnd ∈ validateSchedule s ↔
      ¬(twoDigitHHMM s.endTime = true ∨ oneDigitHMM s.endTime = true)) := by
  constructor
  · rw [mem_msgStart_iff]
    constructor
    · intro h hor
      have hm : matchesTimeRegex s.startTime = true := (matchesTimeRegex_iff _).mpr hor
      exact h ⟨matchesTimeRegex_ne_empty hm, hm⟩
    · intro h hand
      exact h ((matchesTimeRegex_iff _).mp hand.2)
  · rw [mem_msgEnd_iff]
    constructor
    · intro h hor
      have hm : matchesTimeRegex s.endTime = true := (matchesTimeRegex_iff _).mpr hor
      exact h ⟨matchesTimeRegex_ne_empty hm, hm⟩
    · intro h hand
      exact h ((matchesTimeRegex_iff _).mp hand.2)

/-- the canonical two-digit rendering `HH:MM` of an hour and minute. -/
def timeString (h m : Nat) : String :=
  ⟨[Nat.digitChar (h / 10), Nat.digitChar (h % 10), ':', Nat.digitChar (m / 10),
    Nat.digitChar (m % 10)]⟩

/-- code point of a digit character produced by `Nat.digitChar`. -/
theorem digitChar_toNat {d : Nat} (hd : d ≤ 9) : (Nat.digitChar d).toNat = 48 + d := by
  interval_cases d <;> rfl

/-- a rendered digit passes the `[0-9]` class. -/
theorem isDigitCh_digitChar {d : Nat} (hd : d ≤ 9) : isDigitCh (Nat.digitChar d) = true := by
  simp [isDigitCh, digitChar_toNat hd]
  omega

/-- numeric value of a rendered digit. -/
theorem dv_digitChar {d : Nat} (hd : d ≤ 9) : dv (Nat.digitChar d) = d := by
  simp [dv, digitChar_toNat hd]

/-- a two-digit in-range rendering parses, under the JS `Date` embedding, to
its minutes-since-midnight value. -/
theorem parseJsTime_timeString {h m : Nat} (hh : h ≤ 23) (hm : m ≤ 59) :
    parseJsTime (timeString h m) = some (h * 60 + m) := by
  have h1 : h / 10 ≤ 9 := by omega
  have h2 : h % 10 ≤ 9 := by omega
  have h3 : m / 10 ≤ 9 := by omega
  have h4 : m % 10 ≤ 9 := by omega
  simp only [parseJsTime, timeString, isDigitCh_digitChar h1, isDigitCh_digitChar h2,
    isDigitCh_digitChar h3, isDigitCh_digitChar h4, dv_digitChar h1, dv_digitChar h2,
    dv_digitChar h3, dv_digitChar h4]
  have e1 : 10 * (h / 10) + h % 10 = h := by omega
  have e2 : 10 * (m / 10) + m % 10 = m := by omega
  simp [e1, e2, hh, hm]

/-- a rendered time is a nonempty string. -/
theorem timeString_ne_empty (h m : Nat) : ¬timeString h m = "" := by
  intro he
  have : (timeString h m).data = ("" : String).data := by rw [he]
  simp [timeString] at this

/-- C4 counterexample: `"24:00"` fails the syntactic time pattern, yet — the
ordering block being guarded only by non-emptiness, and `24:00:00` being a
valid ECMAScript date-time — the time-ordering error is still produced, so
a syntactically invalid time can add the ordering error. -/
theorem C4_counterexample :
    matchesTimeRegex "24:00" = false ∧
    msgOrder ∈ validateSchedule
      { class_ := "XI A", day := "Senin", subject := "Matematika", teacher := "Bu Sari",
        startTime := "24:00", endTime := "10:00" } := by
  decide

/-- C4 (amended): the ordering check is guarded only by non-emptiness of the
two strings; whenever both times are (two-digit) valid times of day they
both parse, and the ordering error is produced exactly when `endTime` is not
strictly later than `startTime` (equal times rejected).  Syntactically
invalid strings that still parse as a JS date (such as `24:00`) can also
produce the error, as the counterexample records. -/
theorem C4_order_check_amended (s : Sched) (sh sm eh em : Nat)
    (hsh : sh ≤ 23) (hsm : sm ≤ 59) (heh : eh ≤ 23) (hem : em ≤ 59)
    (hs : s.startTime = timeString sh sm) (he : s.endTime = timeString eh em) :
    msgOrder ∈ validateSchedule s ↔ eh * 60 + em ≤ sh * 60 + sm := by
  have hpa : parseJsTime s.startTime = some (sh * 60 + sm) := by
    rw [hs]
    exact parseJsTime_timeString hsh hsm
  have hpb : parseJsTime s.endTime = some (eh * 60 + em) := by
    rw [he]
    exact parseJsTime_timeString heh hem
  have hne1 : ¬s.startTime = "" := by
    rw [hs]
    exact timeString_ne_empty sh sm
  have hne2 : ¬s.endTime = "" := by
    rw [he]
    exact timeString_ne_empty eh em
  simp [validateSchedule, hpa, hpb, mem_singleton_ite, mem_ite_nil, truthyStr,
    String.isEmpty_iff, isEmpty_false_iff, hne1, hne2, msgClass, msgDay, msgSubject,
    msgTeacher, msgStart, msgEnd, msgOrder]

/-- C4 witness: start `10:00`, end `09:00` — two syntactically valid times
with the end not later — produce the ordering error. -/
theorem C4_order_check_amended_witness :
    msgOrder ∈ validateSchedule
      { class_ := "XI A", day := "Senin", subject := "Fisika", teacher := "Pak Tono",
        startTime := "10:00", endTime := "09:00" } :=
  (C4_order_check_amended _ 10 0 9 0 (by decide) (by decide) (by decide) (by decide)
    (by decide) (by decide)).mpr (by decide)

/-- C6: reading the blob path when the blob has never been written — the
store answering 404, or answering with no content (and, in the variant file,
answering with a non-JSON body) — yields the empty collection and no version
token as an ordinary success, not an error. -/
theorem C6_absent_blob_is_empty_state (sha : Option String) (e : GithubError)
    (h404 : e.statusCode = 404) (s : String) :
    getCurrentSchedules (.fileData none sha) = .ok ⟨[], none⟩ ∧
    getCurrentSchedules (.failed e) = .ok ⟨[], none⟩ ∧
    Part000.getCurrentSchedules (.rawBody s) = .ok ⟨[], none⟩ ∧
    Part000.getCurrentSchedules (.fileData none sha) = .ok ⟨[], none⟩ ∧
    Part000.getCurrentSchedules (.failed e) = .ok ⟨[], none⟩ := by
  refine ⟨rfl, ?_, rfl, rfl, ?_⟩ <;>
    simp [getCurrentSchedules, Part000.getCurrentSchedules, h404]

/-- C6 witness: a concrete 404 rejection is treated as the empty state. -/
theorem C6_absent_blob_is_empty_state_witness :
    ({ statusCode := 404, message := "Not Found" } : GithubError).statusCode = 404 ∧
    getCurrentSchedules (.failed { statusCode := 404, message := "Not Found" }) =
      .ok ⟨[], none⟩ :=
  ⟨rfl,
    (C6_absent_blob_is_empty_state none { statusCode := 404, message := "Not Found" }
      rfl "ok").2.1⟩

/-- every write in a trace carries the given version token. -/
def writeShasMatch (tr : List Effect) (sha : Option String) : Bool :=
  tr.all fun e => match e with
    | .writeBlob p => p.sha == sha
    | .readBlob => true

/-- the trace contains at least one write. -/
def hasWrite (tr : List Effect) : Bool :=
  tr.any fun e => match e with
    | .writeBlob _ => true
    | .readBlob => false

/-- the payload keeps a token that is not the empty string unchanged. -/
theorem updateGitHubFile_sha (schedules : List JSObj) (message : String) {sha : Option String}
    (hsha : sha ≠ some "") : (updateGitHubFile schedules message sha).sha = sha := by
  rcases sha with _ | t
  · rfl
  · have ht : t.isEmpty = false := by
      rw [isEmpty_false_iff]
      intro h
      exact hsha (by rw [h])
    simp [updateGitHubFile, ht]

/-- C1: in each mutating operation, every conditional write sent to the
store carries exactly the version token obtained by the read performed in
that same operation (so the token is omitted precisely when the read
yielded none); stated under the store invariant that version tokens are
nonempty strings. -/
theorem C1_write_carries_read_token (body : JSObj) (now : Nat) (rand : String)
    (qid : Option String) (fetch : FetchOutcome) (w : Option GithubError) (st : ReadState)
    (hread : getCurrentSchedules fetch = .ok st) (hsha : st.sha ≠ some "") :
    writeShasMatch (postHandler body now rand fetch w).trace st.sha = true ∧
    writeShasMatch (putHandler body fetch w).trace st.sha = true ∧
    writeShasMatch (deleteHandler qid fetch w).trace st.sha = true := by
  refine ⟨?_, ?_, ?_⟩
  · simp only [postHandler, hread]
    split
    · rfl
    · rcases w with _ | e <;>
        simp [writeShasMatch, updateGitHubFile_sha _ _ hsha]
  · simp only [putHandler, hread]
    split
    · rfl
    · split
      · rfl
      · rcases hfi : findIndexJs (fun r => jsStrictEq (getField r "id") (getField body "id"))
            st.schedules with _ | i <;>
          rcases w with _ | e <;>
          simp [hfi, writeShasMatch, updateGitHubFile_sha _ _ hsha]
  · simp only [deleteHandler, hread]
    split
    · rfl
    · rcases hfi : findIndexJs (fun r => jsStrictEq (getField r "id") qid)
          st.schedules with _ | i <;>
        rcases w with _ | e <;>
        simp [hfi, writeShasMatch, updateGitHubFile_sha _ _ hsha]

/-- a concrete valid request body, used by witnesses. -/
def sampleBody : JSObj :=
  [("class", "XI A"), ("day", "Senin"), ("subject", "Matematika"),
    ("teacher", "Pak Budi"), ("startTime", "10:00"), ("endTime", "11:00")]

/-- C1 witness: a concrete create against a store holding token `tok`
actually performs a write, and that write carries `some "tok"`. -/
theorem C1_write_carries_read_token_witness :
    writeShasMatch
      (postHandler sampleBody 5 "abc123xyz" (.fileData (some []) (some "tok")) none).trace
      (some "tok") = true ∧
    hasWrite
      (postHandler sampleBody 5 "abc123xyz" (.fileData (some []) (some "tok")) none).trace =
      true := by
  constructor
  · exact (C1_write_carries_read_token sampleBody 5 "abc123xyz" none
      (.fileData (some []) (some "tok")) none ⟨[], some "tok"⟩ rfl (by simp)).1
  · decide

/-- C5: a create or update whose input fails validation, and an update with
a missing (or empty, hence falsy) id, answer 400 before any blob-store
interaction: the trace is empty, so nothing is read and nothing is written
and the stored collection is untouched. -/
theorem C5_invalid_input_performs_no_io (body : JSObj) (now : Nat) (rand : String)
    (fetch : FetchOutcome) (w : Option GithubError) :
    (validateSchedule (toSched body) ≠ [] →
      (postHandler body now rand fetch w).trace = [] ∧
      (postHandler body now rand fetch w).resp =
        .errorResp 400 (String.intercalate ", " (validateSchedule (toSched body)))) ∧
    (truthyOpt (getField body "id") = false →
      (putHandler body fetch w).trace = [] ∧
      (putHandler body fetch w).resp = .errorResp 400 "ID jadwal wajib diisi") ∧
    (truthyOpt (getField body "id") = true → validateSchedule (toSched body) ≠ [] →
      (putHandler body fetch w).trace = [] ∧
      (putHandler body fetch w).resp =
        .errorResp 400 (String.intercalate ", " (validateSchedule (toSched body)))) := by
  refine ⟨?_, ?_, ?_⟩
  · intro hv
    have hne : (validateSchedule (toSched body)).isEmpty = false := by
      cases hval : validateSchedule (toSched body)
      · exact absurd hval hv
      · rfl
    simp [postHandler, hne]
  · intro hid
    simp [putHandler, hid]
  · intro hid hv
    have hne : (validateSchedule (toSched body)).isEmpty = false := by
      cases hval : validateSchedule (toSched body)
      · exact absurd hval hv
      · rfl
    simp [putHandler, hid, hne]

/-- C5 witness: the empty request body fails validation, and both the create
and the update short-circuit on it with an empty trace. -/
theorem C5_invalid_input_performs_no_io_witness :
    validateSchedule (toSched []) ≠ [] ∧
    (postHandler [] 0 "r9" (.fileData (some []) (some "tok")) none).trace = [] ∧
    (putHandler [] (.fileData (some []) (some "tok")) none).trace = [] := by
  refine ⟨by decide, ?_, ?_⟩
  · exact (C5_invalid_input_performs_no_io [] 0 "r9" (.fileData (some []) (some "tok"))
      none).1 (by decide) |>.1
  · exact ((C5_invalid_input_performs_no_io [] 0 "r9" (.fileData (some []) (some "tok"))
      none).2.1 (by decide)).1

/-- `findIndex` answers `-1` exactly when no element matches. -/
theorem findIndexJs_eq_none_iff (p : α → Bool) (l : List α) :
    findIndexJs p l = none ↔ ∀ x ∈ l, p x = false := by
  induction l with
  | nil => simp [findIndexJs]
  | cons a t ih => by_cases hp : p a <;> simp [findIndexJs, hp, ih]

/-- the element at a `findIndex` hit satisfies the predicate. -/
theorem findIndexJs_some_get {p : α → Bool} {l : List α} {i : Nat}
    (h : findIndexJs p l = some i) : ∃ x, l.get? i = some x ∧ p x = true := by
  induction l generalizing i with
  | nil => simp [findIndexJs] at h
  | cons a t ih =>
    by_cases hp : p a
    · simp [findIndexJs, hp] at h
      subst h
      exact ⟨a, rfl, hp⟩
    · simp [findIndexJs, hp, Option.map_eq_some'] at h
      obtain ⟨j, hj, hi⟩ := h
      obtain ⟨x, hx, hpx⟩ := ih hj
      subst hi
      exact ⟨x, by simpa using hx, hpx⟩

/-- a `findIndex` hit is inside the list. -/
theorem findIndexJs_lt {p : α → Bool} {l : List α} {i : Nat}
    (h : findIndexJs p l = some i) : i < l.length := by
  obtain ⟨x, hx, _⟩ := findIndexJs_some_get h
  exact List.get?_eq_some.mp hx |>.choose

/-- a list splits around the element at a valid index. -/
theorem list_decomp_at {l : List JSObj} {i : Nat} {x : JSObj} (h : l.get? i = some x) :
    l.take i ++ x :: l.drop (i + 1) = l := by
  induction l generalizing i with
  | nil => simp at h
  | cons a t ih =>
    cases i with
    | zero =>
      simp at h
      subst h
      simp
    | succ j =>
      simp at h
      have h' : t.get? j = some x := by
        rw [List.get?_eq_getElem?]
        exact h
      simp [ih h']

/-- `splice(i, 1)` shortens the list by one. -/
theorem spliceOne_length {l : List JSObj} {i : Nat} (h : i < l.length) :
    (spliceOne l i).length + 1 = l.length := by
  simp [spliceOne]
  omega

/-- when at most one element matches, nothing matches after removing the
first hit. -/
theorem no_match_after_splice {p : JSObj → Bool} :
    ∀ (l : List JSObj) (i : Nat), findIndexJs p l = some i → l.countP p ≤ 1 →
      ∀ x ∈ spliceOne l i, p x = false := by
  intro l
  induction l with
  | nil =>
    intro i h
    simp [findIndexJs] at h
  | cons a t ih =>
    intro i h hc
    by_cases hp : p a
    · simp [findIndexJs, hp] at h
      subst h
      have hct : t.countP p = 0 := by
        rw [List.countP_cons_of_pos _ _ hp] at hc
        omega
      intro x hx
      have hx' : x ∈ t := by simpa [spliceOne] using hx
      have := List.countP_eq_zero.mp hct x hx'
      simpa using this
    · simp [findIndexJs, hp, Option.map_eq_some'] at h
      obtain ⟨j, hj, hi⟩ := h
      subst hi
      have hsp : spliceOne (a :: t) (j + 1) = a :: spliceOne t j := by
        simp [spliceOne]
      intro x hx
      rw [hsp, List.mem_cons] at hx
      rcases hx with hx | hx
      · subst hx
        simpa using hp
      · have hct : t.countP p ≤ 1 := by
          rw [List.countP_cons_of_neg _ _ hp] at hc
          exact hc
        exact ih j hj hct x hx

/-- C7: when an update's fresh read finds the target id at index `i`, the
written collection is the read collection with the record at `i` replaced
wholesale by the request body — same length, body stored at `i`, every other
position untouched — and the body itself is returned. -/
theorem C7_update_replaces_wholesale (body : JSObj) (fetch : FetchOutcome)
    (w : Option GithubError) (st : ReadState) (i : Nat)
    (hread : getCurrentSchedules fetch = .ok st)
    (hid : truthyOpt (getField body "id") = true)
    (hvalid : validateSchedule (toSched body) = [])
    (hfind : findIndexJs (fun r => jsStrictEq (getField r "id") (getField body "id"))
      st.schedules = some i) :
    (putHandler body fetch w).trace =
      [.readBlob, .writeBlob (updateGitHubFile (st.schedules.set i body)
        ("Update jadwal: " ++ jsShow (getField body "subject") ++ " untuk " ++
          jsShow (getField body "class")) st.sha)] ∧
    (st.schedules.set i body).length = st.schedules.length ∧
    (st.schedules.set i body).get? i = some body ∧
    (∀ j, j ≠ i → (st.schedules.set i body).get? j = st.schedules.get? j) ∧
    (w = none → (putHandler body fetch w).resp =
      .successResp 200 "Jadwal berhasil diperbarui" body) := by
  have hlt : i < st.schedules.length := findIndexJs_lt hfind
  have hvempty : (validateSchedule (toSched body)).isEmpty = true := by
    rw [hvalid]
    rfl
  refine ⟨?_, by simp, List.get?_set_eq_of_lt _ hlt, ?_, ?_⟩
  · rcases w with _ | e <;> simp [putHandler, hid, hvempty, hread, hfind]
  · intro j hj
    exact List.get?_set_ne _ _ (Ne.symm hj)
  · intro hw
    subst hw
    simp [putHandler, hid, hvempty, hread, hfind]

/-- a concrete stored record, used by witnesses. -/
def recA : JSObj := [("id", "jadwal_0"), ("subject", "Biologi"), ("class", "XI A")]

/-- a second concrete stored record, used by witnesses. -/
def recB : JSObj := [("id", "jadwal_1"), ("subject", "Fisika"), ("class", "XI B")]

/-- a concrete valid update body targeting `recB`, used by witnesses. -/
def updBody : JSObj :=
  [("id", "jadwal_1"), ("class", "XI B"), ("day", "Selasa"), ("subject", "Kimia"),
    ("teacher", "Bu Ani"), ("startTime", "08:00"), ("endTime", "09:00")]

/-- C7 witness: updating the second of two stored records writes exactly the
collection with position 1 replaced by the body and position 0 untouched. -/
theorem C7_update_replaces_wholesale_witness :
    (putHandler updBody (.fileData (some [recA, recB]) (some "tok")) none).trace =
      [.readBlob, .writeBlob (updateGitHubFile ([recA, recB].set 1 updBody)
        ("Update jadwal: " ++ jsShow (getField updBody "subject") ++ " untuk " ++
          jsShow (getField updBody "class")) (some "tok"))] ∧
    ([recA, recB].set 1 updBody).get? 1 = some updBody ∧
    ([recA, recB].set 1 updBody).get? 0 = some recA := by
  have h := C7_update_replaces_wholesale updBody (.fileData (some [recA, recB]) (some "tok"))
    none ⟨[recA, recB], some "tok"⟩ 1 rfl (by decide) (by decide) (by decide)
  exact ⟨h.1, h.2.2.1, (h.2.2.2.1 0 (by decide)).trans rfl⟩

/-- C8: a delete succeeds exactly when the freshly read collection holds a
record with the query id — the `findIndex` miss is equivalent to no record
matching, and yields the 404 answer with no write; on a hit the handler
writes the read collection with exactly the hit record removed and answers
with that record; and when at most one record carries the id, repeating the
delete against the written collection misses and yields 404. -/
theorem C8_delete_semantics (qid : String) (fetch : FetchOutcome) (w : Option GithubError)
    (st : ReadState) (sha2 : Option String) (w2 : Option GithubError)
    (hq : qid ≠ "") (hread : getCurrentSchedules fetch = .ok st) :
    (findIndexJs (fun r => jsStrictEq (getField r "id") (some qid)) st.schedules = none ↔
      ∀ r ∈ st.schedules, jsStrictEq (getField r "id") (some qid) = false) ∧
    (findIndexJs (fun r => jsStrictEq (getField r "id") (some qid)) st.schedules = none →
      deleteHandler (some qid) fetch w =
        ⟨.errorResp 404 "Jadwal tidak ditemukan", [.readBlob]⟩) ∧
    (∀ i r,
      findIndexJs (fun r => jsStrictEq (getField r "id") (some qid)) st.schedules = some i →
      st.schedules.get? i = some r →
      (deleteHandler (some qid) fetch w).trace =
        [.readBlob, .writeBlob (updateGitHubFile (spliceOne st.schedules i)
          ("Hapus jadwal: " ++ jsShow (getField r "subject") ++ " untuk " ++
            jsShow (getField r "class")) st.sha)] ∧
      st.schedules.take i ++ r :: st.schedules.drop (i + 1) = st.schedules ∧
      (spliceOne st.schedules i).length + 1 = st.schedules.length ∧
      (w = none → (deleteHandler (some qid) fetch w).resp =
        .successResp 200 "Jadwal berhasil dihapus" r) ∧
      (st.schedules.countP (fun r => jsStrictEq (getField r "id") (some qid)) ≤ 1 →
        deleteHandler (some qid) (.fileData (some (spliceOne st.schedules i)) sha2) w2 =
          ⟨.errorResp 404 "Jadwal tidak ditemukan", [.readBlob]⟩)) := by
  have hqe : qid.isEmpty = false := (isEmpty_false_iff qid).mpr hq
  have hqt : truthyOpt (some qid) = true := by simp [truthyOpt, hqe]
  refine ⟨findIndexJs_eq_none_iff _ _, ?_, ?_⟩
  · intro hnone
    simp [deleteHandler, hqt, hread, hnone]
  · intro i r hfind hget
    have hdel : st.schedules[i]?.getD [] = r := by
      rw [← List.get?_eq_getElem?, hget]
      rfl
    refine ⟨?_, list_decomp_at hget, spliceOne_length (findIndexJs_lt hfind), ?_, ?_⟩
    · rcases w with _ | e <;> simp [deleteHandler, hqt, hread, hfind, hdel]
    · intro hw
      subst hw
      simp [deleteHandler, hqt, hread, hfind, hdel]
    · intro hcount
      have hnone2 : findIndexJs (fun r => jsStrictEq (getField r "id") (some qid))
          (spliceOne st.schedules i) = none :=
        (findIndexJs_eq_none_iff _ _).mpr (no_match_after_splice _ i hfind hcount)
      simp [deleteHandler, hqt, hnone2, getCurrentSchedules]

/-- C8 witness: deleting the only stored record writes the empty collection
and returns the record; immediately repeating the delete answers 404. -/
theorem C8_delete_semantics_witness :
    (deleteHandler (some "jadwal_1") (.fileData (some [recB]) (some "tok")) none).trace =
      [.readBlob, .writeBlob (updateGitHubFile (spliceOne [recB] 0)
        ("Hapus jadwal: " ++ jsShow (getField recB "subject") ++ " untuk " ++
          jsShow (getField recB "class")) (some "tok"))] ∧
    (deleteHandler (some "jadwal_1") (.fileData (some [recB]) (some "tok")) none).resp =
      .successResp 200 "Jadwal berhasil dihapus" recB ∧
    deleteHandler (some "jadwal_1") (.fileData (some (spliceOne [recB] 0)) none) none =
      ⟨.errorResp 404 "Jadwal tidak ditemukan", [.readBlob]⟩ := by
  have h := C8_delete_semantics "jadwal_1" (.fileData (some [recB]) (some "tok")) none
    ⟨[recB], some "tok"⟩ none none (by decide) rfl
  have h4 := h.2.2 0 recB (by decide) rfl
  exact ⟨h4.1, h4.2.2.2.1 rfl, h4.2.2.2.2 (by decide)⟩

/-- reading back the property just assigned yields the assigned value. -/
theorem getField_setField_self (o : JSObj) (k v : String) :
    getField (setField o k v) k = some v := by
  induction o with
  | nil => simp [setField, getField]
  | cons p rest ih =>
    obtain ⟨k', v'⟩ := p
    by_cases h : k' == k <;> simp [setField, getField, h, ih]

/-- assigning one property leaves every other property unchanged. -/
theorem getField_setField_ne (o : JSObj) (k v k2 : String) (h : k2 ≠ k) :
    getField (setField o k v) k2 = getField o k2 := by
  have hkk : (k == k2) = false := by
    simp [Ne.symm h]
  induction o with
  | nil => simp [setField, getField, hkk]
  | cons p rest ih =>
    obtain ⟨k', v'⟩ := p
    by_cases h' : k' == k
    · have : k' = k := by simpa using h'
      subst this
      simp [setField, getField, h', hkk]
    · by_cases h2 : k' == k2 <;> simp [setField, getField, h', h2, ih]

/-- C10: a valid create assigns the generated id onto the request-body
object itself, and that very mutated object — generated id plus every other
property the input carried, including ones beyond the schema — is both the
record appended to the written collection and the record in the response. -/
theorem C10_create_mutates_and_returns_body (body : JSObj) (now : Nat) (rand : String)
    (fetch : FetchOutcome) (w : Option GithubError) (st : ReadState)
    (hvalid : validateSchedule (toSched body) = [])
    (hread : getCurrentSchedules fetch = .ok st) :
    (postHandler body now rand fetch w).trace =
      [.readBlob, .writeBlob (updateGitHubFile
        (st.schedules ++ [setField body "id" (generateScheduleId now rand)])
        ("Tambah jadwal: " ++
          jsShow (getField (setField body "id" (generateScheduleId now rand)) "subject") ++
          " untuk " ++
          jsShow (getField (setField body "id" (generateScheduleId now rand)) "class"))
        st.sha)] ∧
    (w = none → (postHandler body now rand fetch w).resp =
      .successResp 201 "Jadwal berhasil ditambahkan"
        (setField body "id" (generateScheduleId now rand))) ∧
    getField (setField body "id" (generateScheduleId now rand)) "id" =
      some (generateScheduleId now rand) ∧
    (∀ k, k ≠ "id" →
      getField (setField body "id" (generateScheduleId now rand)) k = getField body k) := by
  have hvempty : (validateSchedule (toSched body)).isEmpty = true := by
    rw [hvalid]
    rfl
  refine ⟨?_, ?_, getField_setField_self _ _ _, fun k hk => getField_setField_ne _ _ _ _ hk⟩
  · rcases w with _ | e <;> simp [postHandler, hvempty, hread]
  · intro hw
    subst hw
    simp [postHandler, hvempty, hread]

/-- a valid request body carrying an extra property beyond the schema. -/
def extraBody : JSObj := sampleBody ++ [("catatan", "ruang 7")]

/-- C10 witness: creating from a body with an extra property returns the
mutated body itself, extra property and generated id included. -/
theorem C10_create_mutates_and_returns_body_witness :
    getField (setField extraBody "id" (generateScheduleId 7 "k9q2w8r4m")) "catatan" =
      some "ruang 7" ∧
    getField (setField extraBody "id" (generateScheduleId 7 "k9q2w8r4m")) "id" =
      some (generateScheduleId 7 "k9q2w8r4m") ∧
    (postHandler extraBody 7 "k9q2w8r4m" (.fileData (some [recA]) (some "tok")) none).resp =
      .successResp 201 "Jadwal berhasil ditambahkan"
        (setField extraBody "id" (generateScheduleId 7 "k9q2w8r4m")) := by
  have h := C10_create_mutates_and_returns_body extraBody 7 "k9q2w8r4m"
    (.fileData (some [recA]) (some "tok")) none ⟨[recA], some "tok"⟩ (by decide) rfl
  exact ⟨(h.2.2.2 "catatan" (by decide)).trans (by decide), h.2.2.1, h.2.1 rfl⟩

/-- property lookup on a decoded JSON value (`json.message`, `json.errors`):
defined on objects, `undefined` elsewhere. -/
def lookupField (j : JValue) (k : String) : Option JValue :=
  match j with
  | .obj fields =>
    match fields.find? (fun p => p.1 == k) with
    | some p => some p.2
    | none => none
  | _ => none

/-- `json.message || "GitHub API error: " + statusCode`
(`src/api/jadwal.js:33`): the decoded `message` when it is a truthy string,
the fallback text otherwise. -/
def ghMessage (j : JValue) (status : Nat) : String :=
  match lookupField j "message" with
  | some (.str s) => if s.isEmpty then "GitHub API error: " ++ toString status else s
  | _ => "GitHub API error: " ++ toString status

/-- the response-body handler of `githubRequest` (`src/api/jadwal.js:25-44`):
parse `body || "{}"`; on success resolve 2xx with the decoded value and
reject other statuses with `statusCode`, the decoded (or fallback) message,
and whether an `errors` field was attached; when the body cannot be decoded,
reject `statusCode` 500, message `"JSON parse error"`, and the decoder
exception's message as `details`. -/
def handleGithubBody (status : Nat) (body : String) : Except GithubError JValue :=
  match jsonParse (if body == "" then "{}" else body) with
  | .ok j =>
    if 200 ≤ status && status < 300 then .ok j
    else .error { statusCode := status, message := ghMessage j status,
                  errorsIsSet := (lookupField j "errors").isSome }
  | .error e => .error { statusCode := 500, message := "JSON parse error", details := some e }

/-- C9 counterexample: on the undecodable body `"ab"` the client rejects a
typed parse error whose fields are the fixed status 500, the fixed message,
and the decoder exception's message — none of which is the raw response
body, so the raw body is not attached. -/
theorem C9_counterexample :
    handleGithubBody 200 "ab" =
      .error { statusCode := 500, message := "JSON parse error",
               details := some (errUnexpected 'a' 0) } ∧
    errUnexpected 'a' 0 ≠ "ab" ∧ "JSON parse error" ≠ "ab" := by
  refine ⟨rfl, by decide, by decide⟩

/-- C9 (amended): whenever the response body cannot be decoded, the client
does not crash: it rejects the typed error with status 500, message
`"JSON parse error"`, and the decoder exception's message (not the raw
body) attached as `details`. -/
theorem C9_parse_failure_typed_error (status : Nat) (body : String) (e : String)
    (h : jsonParse (if body == "" then "{}" else body) = .error e) :
    handleGithubBody status body =
      .error { statusCode := 500, message := "JSON parse error", details := some e } := by
  have h' : jsonParse (if body = "" then "{}" else body) = .error e := by
    simpa using h
  simp [handleGithubBody, h']

/-- C9 witness: the concrete undecodable body `"ab"` on a 404 response. -/
theorem C9_parse_failure_typed_error_witness :
    jsonParse (if ("ab" : String) == "" then "{}" else "ab") =
      .error (errUnexpected 'a' 0) ∧
    handleGithubBody 404 "ab" =
      .error { statusCode := 500, message := "JSON parse error",
               details := some (errUnexpected 'a' 0) } :=
  ⟨rfl, C9_parse_failure_typed_error 404 "ab" (errUnexpected 'a' 0) rfl⟩
